import Mathlib

/-
  Verification development for the ADB device-automation script
  (src/adb_control.py).

  The Python source is shallowly embedded as executable Lean definitions:
  * a subprocess invocation is abstracted as an environment
    `Env : String → InvokeOutcome` mapping the full command line to the
    outcome the operating system would produce (captured stdout, a
    nonzero-exit failure with stderr, a timeout, or any other fault);
  * each function of the script that issues commands returns, besides its
    result, the list of command strings it passed to `run_adb_command`
    (its observable interaction trace);
  * `time.sleep` calls are recorded as counters where a claim mentions
    them and elided otherwise (they have no other observable effect);
  * Python `int` is modelled as `Int` (the `isinstance` checks of the
    source hold by typing);
  * Python text is modelled as `List Char`; `str.replace` with a
    one-character pattern is `pyReplace1` below.
-/

namespace AdbControl

/-- Outcome of one subprocess invocation, as distinguished by the
`try/except` arms of `run_adb_command` (lines 104-137 of the source):
normal completion with captured stdout, `CalledProcessError` (nonzero
exit, carries stderr), `TimeoutExpired`, or any other raised fault. -/
inductive InvokeOutcome where
  | success (stdout : String)
  | calledProcessError (stderr : String)
  | timeoutExpired
  | unknownError (msg : String)
deriving DecidableEq

/-- The external world: what invoking a given full command line does. -/
abbrev Env := String → InvokeOutcome

/-- `run_adb_command` (source lines 84-137): prepends `adb `, runs the
subprocess, returns the captured stdout on success and `None` on every
failure path (`CalledProcessError`, `TimeoutExpired`, any other
exception); nothing is raised past its boundary, which the embedding
expresses by totality into `Option String`. The `timeout` parameter only
influences which outcome the environment produces, so it is absorbed
into `Env`. -/
def run_adb_command (env : Env) (command : String) : Option String :=
  match env ("adb " ++ command) with
  | .success out => some out
  | .calledProcessError _ => none
  | .timeoutExpired => none
  | .unknownError _ => none

/- Configuration constants of the source `Config` class (lines 31-65). -/
namespace Config

def DEFAULT_REPEAT_COUNT : Int := 300

def DEFAULT_SWIPE_DURATION : Int := 300

/-- `Config.SWIPE_COORDINATES['start']`. -/
def SWIPE_START : Int × Int := (1000, 1400)

/-- `Config.SWIPE_COORDINATES['end']`. -/
def SWIPE_END : Int × Int := (540, 1400)

def CLICK_COORDINATES : List (Int × Int) := [(1126, 1466), (770, 2300), (939, 2525)]

end Config

/-- `swipe_screen` (source lines 203-245): validates that all four
coordinates are non-negative, then that the duration (defaulted from
`Config.DEFAULT_SWIPE_DURATION`) is positive, and only then builds the
command string and invokes the executor. Returns the success Boolean
together with the list of commands it passed to `run_adb_command`. -/
def swipe_screen (env : Env) (start_x start_y end_x end_y : Int)
    (duration : Option Int) : Bool × List String :=
  let d := duration.getD Config.DEFAULT_SWIPE_DURATION
  if start_x < 0 ∨ start_y < 0 ∨ end_x < 0 ∨ end_y < 0 then (false, [])
  else if d ≤ 0 then (false, [])
  else
    let command := s!"shell input swipe {start_x} {start_y} {end_x} {end_y} {d}"
    ((run_adb_command env command).isSome, [command])

/-- `tap_screen` (source lines 248-276): validates both coordinates
non-negative before building the command string and invoking the
executor. -/
def tap_screen (env : Env) (x y : Int) : Bool × List String :=
  if x < 0 ∨ y < 0 then (false, [])
  else
    let command := s!"shell input tap {x} {y}"
    ((run_adb_command env command).isSome, [command])

/-- The single-quote character (codepoint 39), written via `Char.ofNat`. -/
def squote : Char := Char.ofNat 39

/-- Python `str.replace(pat, rep)` for a one-character pattern `p`:
every occurrence of `p` is replaced by `rep`, scanning left to right.
All six `replace` calls of `input_text` use one-character patterns. -/
def pyReplace1 : List Char → Char → List Char → List Char
  | [], _, _ => []
  | c :: rest, p, rep =>
    if c = p then rep ++ pyReplace1 rest p rep else c :: pyReplace1 rest p rep

/-- The escaping transform of `input_text` (source lines 311-318), as the
chain of `replace` calls the source performs.  Note that the second call
is `text.replace("'", "\'")`: in Python the string literal `"\'"` denotes
a plain single quote, so this call replaces a single quote by itself. -/
def escapeText (t : List Char) : List Char :=
  pyReplace1 (pyReplace1 (pyReplace1 (pyReplace1 (pyReplace1 (pyReplace1
    t ' ' ['%', 's'])
    squote [squote])
    '"' ['\\', '"'])
    '&' ['\\', '&'])
    '(' ['\\', '('])
    ')' ['\\', ')']

/-- The per-character code implied by the six `replace` calls: the chain
of one-character replacements is equivalent to mapping this function over
the text (proved in `escapeText_eq_flatMap`). -/
def charEsc (c : Char) : List Char :=
  if c = ' ' then ['%', 's']
  else if c = '"' then ['\\', '"']
  else if c = '&' then ['\\', '&']
  else if c = '(' then ['\\', '(']
  else if c = ')' then ['\\', ')']
  else [c]

/-- Modelled from the spec: the decoder the claim about `input_text`
escaping speaks of ("mapping the space-marker and the quote-escapes
back").  It maps the marker `%s` back to a space and each
backslash-escape produced by `escapeText` back to its bare character;
every other character is passed through. -/
def unescapeText : List Char → List Char
  | [] => []
  | [c] => [c]
  | c :: d :: rest =>
    if c = '%' ∧ d = 's' then ' ' :: unescapeText rest
    else if c = '\\' ∧ (d = '"' ∨ d = '&' ∨ d = '(' ∨ d = ')') then d :: unescapeText rest
    else c :: unescapeText (d :: rest)

/-- Whether the text contains the adjacent pair `%s` — the one pattern on
which the escaping transform collides with the space marker. -/
def hasPS : List Char → Bool
  | [] => false
  | [_] => false
  | c :: d :: rest => (c == '%' && d == 's') || hasPS (d :: rest)

/-- Characters stripped by Python `str.strip()` (the ASCII whitespace
set; the source only ever strips plain text). -/
def isPySpace (c : Char) : Bool :=
  c == ' ' || c == '\t' || c == '\n' || c == '\r' || c == Char.ofNat 11 || c == Char.ofNat 12

/-- `input_text` (source lines 279-324): whitespace-only (or empty) text
is a no-op returning `True` without touching the executor; otherwise the
text is escaped by `escapeText`, wrapped in single quotes inside the
command string, and the command is executed. -/
def input_text (env : Env) (text : List Char) : Bool × List String :=
  if text.all isPySpace then (true, [])
  else
    let escaped := escapeText text
    let command := "shell input text " ++ String.mk [squote] ++ String.mk escaped
      ++ String.mk [squote]
    ((run_adb_command env command).isSome, [command])

/-- Observable behaviour of one `perform_click_sequence` call: its return
value, the number of successful taps, the number of `tap_screen` calls
made, the number of `time.sleep(interval)` calls, and the commands passed
to the executor. -/
structure ClickTrace where
  result : Bool
  successes : Nat
  attempted : Nat
  sleeps : Nat
  trace : List String
deriving DecidableEq

/-- The `for` loop of `perform_click_sequence` (source lines 404-413):
returns (successes, taps attempted, sleeps, executor commands).  A sleep
happens only after a successful tap that is not the last of the list,
exactly as in the source (the `time.sleep` sits inside the success
branch). -/
def clickLoop (env : Env) : List (Int × Int) → Nat × Nat × Nat × List String
  | [] => (0, 0, 0, [])
  | (x, y) :: rest =>
    let t := tap_screen env x y
    let r := clickLoop env rest
    if t.1 then
      (r.1 + 1, r.2.1 + 1, if rest.isEmpty then r.2.2.1 else r.2.2.1 + 1, t.2 ++ r.2.2.2)
    else (r.1, r.2.1 + 1, r.2.2.1, t.2 ++ r.2.2.2)

/-- `perform_click_sequence` (source lines 375-418): an empty coordinate
list returns `True` before the loop; otherwise every coordinate is
tapped, successes are counted, and the call succeeds iff the success
count equals the list length (`success_count == len(coordinates)`). -/
def perform_click_sequence (env : Env) (coordinates : List (Int × Int)) : ClickTrace :=
  if coordinates.isEmpty then ⟨true, 0, 0, 0, []⟩
  else
    let r := clickLoop env coordinates
    ⟨r.1 == coordinates.length, r.1, r.2.1, r.2.2.1, r.2.2.2⟩

/-- `execute_automation_sequence` (source lines 478-526), on runs where
no interrupt arrives (interrupt delivery is modelled at the run-loop
level): swipe using `Config.SWIPE_COORDINATES`; on swipe failure return
`False` at once (the click sequence is never reached); otherwise run the
click sequence over `Config.CLICK_COORDINATES` and return its outcome.
The two `time.sleep` waits have no observable effect.  The list is the
concatenation of the commands the steps passed to the executor. -/
def execute_automation_sequence (env : Env) : Bool × List String :=
  let sw := swipe_screen env Config.SWIPE_START.1 Config.SWIPE_START.2
    Config.SWIPE_END.1 Config.SWIPE_END.2 none
  if !sw.1 then (false, sw.2)
  else
    let ck := perform_click_sequence env Config.CLICK_COORDINATES
    if !ck.result then (false, sw.2 ++ ck.trace)
    else (true, sw.2 ++ ck.trace)

/-- Observable behaviour of one `wait_and_retry` call: its return value,
how many times it invoked the operation, and how many times it slept. -/
structure RetryTrace where
  result : Bool
  calls : Nat
  sleeps : Nat
deriving DecidableEq

/-- The `for attempt in range(max_retries + 1)` loop of `wait_and_retry`
(source lines 438-451).  The operation is a function of the attempt
index; `Except.error` models an exception raised by the operation (caught
by the `except Exception` arm), `Except.ok b` a normal return of
truthiness `b`.  The second argument is the remaining number of loop
iterations; a sleep happens after a failed attempt iff
`attempt < max_retries`, as in the source. -/
def retryAux (op : Nat → Except String Bool) (maxR : Int) : Nat → Nat → RetryTrace
  | _, 0 => ⟨false, 0, 0⟩
  | attempt, r + 1 =>
    match op attempt with
    | .ok true => ⟨true, 1, 0⟩
    | _ =>
      let t := retryAux op maxR (attempt + 1) r
      if (attempt : Int) < maxR then ⟨t.result, t.calls + 1, t.sleeps + 1⟩
      else ⟨t.result, t.calls + 1, t.sleeps⟩

/-- `wait_and_retry` (source lines 421-453): run the attempt loop
`range(max_retries + 1)` — which is empty when `max_retries < 0`, since
Python `range` of a non-positive bound is empty — starting at attempt 0.
The `retry_interval` argument only determines how long each recorded
sleep lasts, so it does not appear in the model. -/
def wait_and_retry (op : Nat → Except String Bool) (max_retries : Int) : RetryTrace :=
  retryAux op max_retries 0 (max_retries + 1).toNat

/-- The contract of `wait_and_retry` for a non-negative retry budget:
at most `max_retries + 1` invocations; true exactly when some attempt
within the budget returns a truthy value; on success it stopped at the
first truthy attempt `i`, having invoked the operation `i + 1` times and
slept `i` times (between attempts, never after the last); on failure it
used every attempt and slept between consecutive attempts only; and an
operation whose exceptions are replaced by falsy returns behaves
identically (exceptions are treated exactly like a false result). -/
def RetrySpec (op : Nat → Except String Bool) (maxR : Int) : Prop :=
  (wait_and_retry op maxR).calls ≤ (maxR + 1).toNat ∧
  ((wait_and_retry op maxR).result = true ↔
    ∃ i : Nat, (i : Int) ≤ maxR ∧ op i = .ok true) ∧
  ((wait_and_retry op maxR).result = true →
    ∃ i : Nat, (i : Int) ≤ maxR ∧ op i = .ok true ∧ (∀ j, j < i → op j ≠ .ok true) ∧
      (wait_and_retry op maxR).calls = i + 1 ∧ (wait_and_retry op maxR).sleeps = i) ∧
  ((wait_and_retry op maxR).result = false →
    (wait_and_retry op maxR).calls = (maxR + 1).toNat ∧
    (wait_and_retry op maxR).sleeps = maxR.toNat ∧
    (∀ i : Nat, (i : Int) ≤ maxR → op i ≠ .ok true)) ∧
  wait_and_retry (fun i => match op i with | .error _ => .ok false | x => x) maxR
    = wait_and_retry op maxR

/-- What one iteration of the `__main__` loop body does to `main()`.
`interrupted` models a `KeyboardInterrupt` raised while control is inside
the `try` of `execute_automation_sequence` (source lines 494-523): it is
caught there and `main()` returns `False`.  `result b` is a normal
completion of `main()` with outcome `b` (this includes the device gate
returning `False`, in which case `b = false`). -/
inductive SeqEvent where
  | interrupted
  | result (b : Bool)
deriving DecidableEq

/-- What happens during one iteration of the `__main__` loop (source
lines 617-632).  `deviceInterrupt`: a `KeyboardInterrupt` delivered while
inside `check_device_connected`, i.e. inside `main()` but outside the
inner `try` — it propagates to the loop's `except KeyboardInterrupt`.
`run se sleepInterrupt`: `main()` finishes as described by `se`; if
`sleepInterrupt` is true a `KeyboardInterrupt` arrives during the
inter-iteration `time.sleep` (which only exists before a further
iteration). -/
inductive IterEvent where
  | deviceInterrupt
  | run (se : SeqEvent) (sleepInterrupt : Bool)
deriving DecidableEq

/-- The value `main()` returns for a given sequence event. -/
def mainResult : SeqEvent → Bool
  | .interrupted => false
  | .result b => b

/-- Observable outcome of one whole run of the `__main__` block:
the process exit status, the final `success_count`, how many iterations
recorded an outcome (success or failure), and whether the loop's
`except KeyboardInterrupt` arm fired. -/
structure RunOutcome where
  exit_code : Nat
  success_count : Nat
  iterations_attempted : Nat
  interrupted : Bool
deriving DecidableEq

/-- The `for i in range(args.repeat_count)` loop (source lines 617-637)
under the `try/except KeyboardInterrupt`: arguments are the remaining
iteration count, the current index `i` and the accumulated
`success_count`; the result is the final `success_count`, the number of
iterations whose outcome was recorded, and whether the interrupt handler
fired.  A `deviceInterrupt` stops the loop before iteration `i` records
anything; an interrupt during the inter-iteration sleep stops it after
iteration `i` was recorded; an interrupt swallowed inside the automation
sequence records the iteration as failed and continues. -/
def runLoopAux (events : Nat → IterEvent) (n : Nat) : Nat → Nat → Nat → Nat × Nat × Bool
  | 0, i, succ => (succ, i, false)
  | r + 1, i, succ =>
    match events i with
    | .deviceInterrupt => (succ, i, true)
    | .run se sleepInt =>
      let succ2 := if mainResult se then succ + 1 else succ
      if sleepInt ∧ i + 1 < n then (succ2, i + 1, true)
      else runLoopAux events n r (i + 1) succ2

/-- The success rate the summary prints (source line 643):
`success_count / repeat_count * 100 if repeat_count > 0 else 0`, as an
exact rational. -/
def success_rate (succ : Nat) (n : Int) : ℚ :=
  if 0 < n then (succ : ℚ) / (n : ℚ) * 100 else 0

/-- The `__main__` block (source lines 591-656): a non-positive repeat
count is rejected with exit status 1 before any device interaction;
otherwise the loop runs and the process exits 0 iff the final success
rate is at least 90 (source line 655).  The exit test is written in the
cross-multiplied integer form `90 * repeat_count ≤ 100 * success_count`,
which for a positive repeat count is exactly `success_rate ≥ 90` (proved
in `run_loop_exit_code`); this keeps the definition kernel-computable. -/
def runMain (events : Nat → IterEvent) (repeat_count : Int) : RunOutcome :=
  if repeat_count ≤ 0 then ⟨1, 0, 0, false⟩
  else
    let r := runLoopAux events repeat_count.toNat repeat_count.toNat 0 0
    ⟨if 90 * repeat_count ≤ 100 * (r.1 : Int) then 0 else 1, r.1, r.2.1, r.2.2⟩

/-- Number of successful iterations among iterations `i, i+1, ...,
i+r-1`, given each iteration's sequence event. -/
def countSucc (seqOf : Nat → SeqEvent) : Nat → Nat → Nat
  | _, 0 => 0
  | i, r + 1 => (if mainResult (seqOf i) then 1 else 0) + countSucc seqOf (i + 1) r

/- Concrete fixtures used by witnesses and counterexamples. -/

/-- An environment in which every invocation succeeds with empty output. -/
def envOk : Env := fun _ => .success ""

/-- An environment in which every invocation exits nonzero. -/
def envFail : Env := fun _ => .calledProcessError "err"

/-- An environment in which exactly the tap at (3, 4) fails. -/
def envTapFail34 : Env := fun cmd =>
  if cmd = "adb shell input tap 3 4" then .calledProcessError "err" else .success ""

/-- An operation that raises on attempt 0, returns falsy on attempt 1,
and returns truthy from attempt 2 on. -/
def opTwoFails : Nat → Except String Bool := fun i =>
  if i = 0 then .error "boom" else if i = 1 then .ok false else .ok true

/-- A run in which a `KeyboardInterrupt` arrives during iteration 0's
automation sequence and every later iteration succeeds. -/
def evSwallowedInterrupt : Nat → IterEvent := fun i =>
  if i = 0 then .run .interrupted false else .run (.result true) false

/-- A run in which iterations 0-2 succeed and a `KeyboardInterrupt`
arrives during iteration 3's device check. -/
def evDeviceInterruptAt3 : Nat → IterEvent := fun i =>
  if i < 3 then .run (.result true) false else .deviceInterrupt

/-- A run in which every iteration succeeds with no interrupt. -/
def evAllSuccess : Nat → IterEvent := fun _ => .run (.result true) false

/-- The per-iteration sequence events of `evAllSuccess`. -/
def seqAllSuccess : Nat → SeqEvent := fun _ => .result true

/-- A run in which every iteration except iteration 2 succeeds. -/
def evFourOfFive : Nat → IterEvent := fun i => .run (.result (decide (i ≠ 2))) false

/-- The per-iteration sequence events of `evFourOfFive`. -/
def seqFourOfFive : Nat → SeqEvent := fun i => .result (decide (i ≠ 2))

/-- A sample text containing every specially-treated character and no
occurrence of the marker pair `%s`. -/
def sampleText : List Char := ['a', ' ', '"', squote, '&', '(', ')', 'b']

/- ===================== Lemmas and theorems ===================== -/

lemma pyReplace1_eq_flatMap (l : List Char) (p : Char) (rep : List Char) :
    pyReplace1 l p rep = l.flatMap (fun c => if c = p then rep else [c]) := by
  induction l with
  | nil => rfl
  | cons c t ih =>
    simp only [pyReplace1, List.flatMap_cons, ih]
    split <;> simp

/-- The chain of six `replace` calls acts character by character. -/
lemma escapeText_eq_flatMap (t : List Char) : escapeText t = t.flatMap charEsc := by
  unfold escapeText
  simp only [pyReplace1_eq_flatMap, List.flatMap_assoc]
  apply List.flatMap_congr
  intro c _
  by_cases h1 : c = ' '
  · subst h1; decide
  by_cases h2 : c = squote
  · subst h2; decide
  by_cases h3 : c = '"'
  · subst h3; decide
  by_cases h4 : c = '&'
  · subst h4; decide
  by_cases h5 : c = '('
  · subst h5; decide
  by_cases h6 : c = ')'
  · subst h6; decide
  simp [charEsc, h1, h2, h3, h4, h5, h6]

lemma hasPS_tail (c : Char) (t : List Char) (h : hasPS (c :: t) = false) :
    hasPS t = false := by
  cases t with
  | nil => rfl
  | cons d r =>
    simp only [hasPS, Bool.or_eq_false_iff] at h
    exact h.2

lemma unescape_cons_default (c d : Char) (r : List Char)
    (h1 : ¬(c = '%' ∧ d = 's'))
    (h2 : ¬(c = '\\' ∧ (d = '"' ∨ d = '&' ∨ d = '(' ∨ d = ')'))) :
    unescapeText (c :: d :: r) = c :: unescapeText (d :: r) := by
  rw [unescapeText, if_neg h1, if_neg h2]

lemma unescape_cons_of_head (c : Char) (X : List Char)
    (hh : ∀ d r, X = d :: r → ¬(c = '%' ∧ d = 's') ∧
      ¬(c = '\\' ∧ (d = '"' ∨ d = '&' ∨ d = '(' ∨ d = ')'))) :
    unescapeText (c :: X) = c :: unescapeText X := by
  cases X with
  | nil => rfl
  | cons d r =>
    obtain ⟨p1, p2⟩ := hh d r rfl
    exact unescape_cons_default c d r p1 p2

/-- The first character of an escaped text is the marker head `%`, a
backslash, or a character that the transform passes through unchanged. -/
lemma flatMap_charEsc_head (t : List Char) (d0 : Char) (r0 : List Char)
    (heq : t.flatMap charEsc = d0 :: r0) :
    d0 = '%' ∨ d0 = '\\' ∨ (∃ r, t = d0 :: r ∧ charEsc d0 = [d0]) := by
  cases t with
  | nil => simp at heq
  | cons d r =>
    rw [List.flatMap_cons] at heq
    by_cases h1 : d = ' '
    · subst h1; rw [show charEsc ' ' = ['%', 's'] from by decide] at heq
      exact Or.inl (List.cons.injEq .. ▸ heq).1.symm
    by_cases h2 : d = '"'
    · subst h2; rw [show charEsc '"' = ['\\', '"'] from by decide] at heq
      exact Or.inr (Or.inl (List.cons.injEq .. ▸ heq).1.symm)
    by_cases h3 : d = '&'
    · subst h3; rw [show charEsc '&' = ['\\', '&'] from by decide] at heq
      exact Or.inr (Or.inl (List.cons.injEq .. ▸ heq).1.symm)
    by_cases h4 : d = '('
    · subst h4; rw [show charEsc '(' = ['\\', '('] from by decide] at heq
      exact Or.inr (Or.inl (List.cons.injEq .. ▸ heq).1.symm)
    by_cases h5 : d = ')'
    · subst h5; rw [show charEsc ')' = ['\\', ')'] from by decide] at heq
      exact Or.inr (Or.inl (List.cons.injEq .. ▸ heq).1.symm)
    · have hc : charEsc d = [d] := by simp [charEsc, h1, h2, h3, h4, h5]
      rw [hc] at heq
      have hd : d = d0 := (List.cons.injEq .. ▸ heq).1
      subst hd
      exact Or.inr (Or.inr ⟨r, rfl, hc⟩)

/-- Decoding inverts the character-wise escaping on texts without the
adjacent pair `%s`. -/
lemma unescape_flatMap : ∀ t : List Char, hasPS t = false →
    unescapeText (t.flatMap charEsc) = t := by
  intro t
  induction t with
  | nil => intro _; rfl
  | cons c t ih =>
    intro h
    have ht : hasPS t = false := hasPS_tail c t h
    rw [List.flatMap_cons]
    by_cases h1 : c = ' '
    · subst h1
      rw [show charEsc ' ' = ['%', 's'] from by decide]
      show unescapeText ('%' :: 's' :: t.flatMap charEsc) = ' ' :: t
      rw [show ∀ X, unescapeText ('%' :: 's' :: X) = ' ' :: unescapeText X from
        fun X => by rw [unescapeText]; simp, ih ht]
    by_cases h2 : c = '"'
    · subst h2
      rw [show charEsc '"' = ['\\', '"'] from by decide]
      show unescapeText ('\\' :: '"' :: t.flatMap charEsc) = '"' :: t
      rw [show ∀ X, unescapeText ('\\' :: '"' :: X) = '"' :: unescapeText X from
        fun X => by rw [unescapeText]; simp, ih ht]
    by_cases h3 : c = '&'
    · subst h3
      rw [show charEsc '&' = ['\\', '&'] from by decide]
      show unescapeText ('\\' :: '&' :: t.flatMap charEsc) = '&' :: t
      rw [show ∀ X, unescapeText ('\\' :: '&' :: X) = '&' :: unescapeText X from
        fun X => by rw [unescapeText]; simp, ih ht]
    by_cases h4 : c = '('
    · subst h4
      rw [show charEsc '(' = ['\\', '('] from by decide]
      show unescapeText ('\\' :: '(' :: t.flatMap charEsc) = '(' :: t
      rw [show ∀ X, unescapeText ('\\' :: '(' :: X) = '(' :: unescapeText X from
        fun X => by rw [unescapeText]; simp, ih ht]
    by_cases h5 : c = ')'
    · subst h5
      rw [show charEsc ')' = ['\\', ')'] from by decide]
      show unescapeText ('\\' :: ')' :: t.flatMap charEsc) = ')' :: t
      rw [show ∀ X, unescapeText ('\\' :: ')' :: X) = ')' :: unescapeText X from
        fun X => by rw [unescapeText]; simp, ih ht]
    · have hc : charEsc c = [c] := by simp [charEsc, h1, h2, h3, h4, h5]
      rw [hc]
      show unescapeText (c :: t.flatMap charEsc) = c :: t
      rw [unescape_cons_of_head c _ ?_, ih ht]
      intro d0 r0 heq
      rcases flatMap_charEsc_head t d0 r0 heq with h' | h' | ⟨r, ht', hch⟩
      · subst h'; exact ⟨by simp, by simp⟩
      · subst h'; exact ⟨by simp, by simp⟩
      · constructor
        · rintro ⟨hc1, hd1⟩
          subst hc1; subst hd1
          rw [ht'] at h
          simp [hasPS] at h
        · rintro ⟨_, hd⟩
          rcases hd with h' | h' | h' | h' <;> subst h' <;> exact absurd hch (by decide)

/-- Decoding inverts `input_text` escaping on texts without `%s`. -/
lemma escapeRoundTrip (t : List Char) (h : hasPS t = false) :
    unescapeText (escapeText t) = t := by
  rw [escapeText_eq_flatMap]
  exact unescape_flatMap t h

/-- C2 counterexample: the escaping transform is not injective on
printable text — it sends the one-character text consisting of a space
and the two-character text `%s` (both printable) to the same escaped
form, so no decoder can reconstruct both originals. -/
theorem escape_space_collides_with_percent_s :
    escapeText [' '] = escapeText ['%', 's'] ∧ ([' '] : List Char) ≠ ['%', 's'] := by
  decide

/-- C2 (amended): for every input text that contains no occurrence of
the two-character substring `%s`, decoding the escaped form produced by
the escaping transform of `input_text` (mapping the space marker and the
backslash escapes back) reconstructs the original text exactly, and on
that domain the transform is injective. -/
theorem escape_round_trip_no_marker (t : List Char) (h : hasPS t = false) :
    unescapeText (escapeText t) = t ∧
    ∀ u : List Char, hasPS u = false → escapeText t = escapeText u → t = u := by
  refine ⟨escapeRoundTrip t h, fun u hu he => ?_⟩
  rw [← escapeRoundTrip t h, he, escapeRoundTrip u hu]

/-- C2 witness: the round trip at a concrete text containing every
specially-escaped character. -/
theorem escape_round_trip_no_marker_witness :
    hasPS sampleText = false ∧
    (unescapeText (escapeText sampleText) = sampleText ∧
      ∀ u : List Char, hasPS u = false → escapeText sampleText = escapeText u →
        sampleText = u) :=
  ⟨by decide, escape_round_trip_no_marker sampleText (by decide)⟩

/-- C3: the escaping transform of `input_text` leaves a single quote
completely unescaped (because the Python literal `"\'"` is just `"'"`,
the `replace` on line 313 maps a quote to itself), while space, double
quote, ampersand and both parentheses are transformed as documented; the
unescaped quote is then embedded verbatim between the wrapping single
quotes of the command, as the executor trace shows. -/
theorem single_quote_left_unescaped :
    escapeText [squote] = [squote] ∧
    (input_text envOk [squote]).2 =
      ["shell input text " ++ String.mk [squote, squote, squote]] ∧
    escapeText [' '] = ['%', 's'] ∧
    escapeText ['"'] = ['\\', '"'] ∧
    escapeText ['&'] = ['\\', '&'] ∧
    escapeText ['('] = ['\\', '('] ∧
    escapeText [')'] = ['\\', ')'] := by
  decide

/-- C9: the command executor is total — for every environment behaviour
it returns a value rather than raising: the captured stdout when the
invocation (of `adb ` prepended to the command) succeeds, and `none` on
every failure outcome (nonzero exit, timeout, and any other fault are
all classified as failures, never re-raised). -/
theorem run_adb_command_never_raises (env : Env) (command : String) :
    (∃ out, env ("adb " ++ command) = .success out ∧
      run_adb_command env command = some out) ∨
    (run_adb_command env command = none ∧
      ∀ out, env ("adb " ++ command) ≠ .success out) := by
  cases h : env ("adb " ++ command) with
  | success out => exact Or.inl ⟨out, rfl, by simp [run_adb_command, h]⟩
  | calledProcessError e => exact Or.inr ⟨by simp [run_adb_command, h], by simp [h]⟩
  | timeoutExpired => exact Or.inr ⟨by simp [run_adb_command, h], by simp [h]⟩
  | unknownError e => exact Or.inr ⟨by simp [run_adb_command, h], by simp [h]⟩

/-- C8: a tap with a negative coordinate and a swipe with a negative
coordinate or non-positive duration both return `false` with an empty
executor trace — the validation rejects them before any command string
is built or executed. -/
theorem tap_swipe_reject_invalid_without_executor (env : Env)
    (x y sx sy ex ey d : Int) (hx : x < 0 ∨ y < 0)
    (hs : sx < 0 ∨ sy < 0 ∨ ex < 0 ∨ ey < 0 ∨ d ≤ 0) :
    tap_screen env x y = (false, []) ∧
    swipe_screen env sx sy ex ey (some d) = (false, []) := by
  constructor
  · rw [tap_screen, if_pos hx]
  · by_cases hcoord : sx < 0 ∨ sy < 0 ∨ ex < 0 ∨ ey < 0
    · simp only [swipe_screen]
      rw [if_pos hcoord]
    · have hd : d ≤ 0 := by tauto
      simp only [swipe_screen]
      rw [if_neg hcoord,
        if_pos (show (some d).getD Config.DEFAULT_SWIPE_DURATION ≤ 0 from hd)]

/-- C8 witness: a tap at (-1, 5) and a swipe with zero duration are both
rejected with no executor call, even in an environment where every
command would succeed. -/
theorem tap_swipe_reject_invalid_witness :
    (((-1 : Int) < 0 ∨ (5 : Int) < 0) ∧
      ((0 : Int) < 0 ∨ (0 : Int) < 0 ∨ (0 : Int) < 0 ∨ (0 : Int) < 0 ∨ (0 : Int) ≤ 0)) ∧
    (tap_screen envOk (-1) 5 = (false, []) ∧
      swipe_screen envOk 0 0 0 0 (some 0) = (false, [])) :=
  ⟨⟨by decide, by decide⟩,
    tap_swipe_reject_invalid_without_executor envOk (-1) 5 0 0 0 0 0
      (by decide) (by decide)⟩

lemma clickLoop_attempted (env : Env) :
    ∀ coords : List (Int × Int), (clickLoop env coords).2.1 = coords.length := by
  intro coords
  induction coords with
  | nil => rfl
  | cons c rest ih =>
    obtain ⟨x, y⟩ := c
    by_cases ht : (tap_screen env x y).1 <;>
      simp [clickLoop, ht, ih]

lemma clickLoop_successes (env : Env) :
    ∀ coords : List (Int × Int),
      (clickLoop env coords).1 = coords.countP (fun c => (tap_screen env c.1 c.2).1) := by
  intro coords
  induction coords with
  | nil => rfl
  | cons c rest ih =>
    obtain ⟨x, y⟩ := c
    by_cases ht : (tap_screen env x y).1 <;>
      simp [clickLoop, ht, ih, List.countP_cons]

/-- C6: `perform_click_sequence` attempts a tap for every coordinate of
the list regardless of earlier failures, counts exactly the successful
taps, and returns `true` iff every tap succeeded; concretely, over the
three coordinates (1,2), (3,4), (5,6) in an environment where exactly
the (3,4) tap fails, all three taps are attempted, the observable
success count is 2 of 3, and the call returns `false`. -/
theorem perform_click_sequence_spec (env : Env) (coords : List (Int × Int)) :
    (perform_click_sequence env coords).attempted = coords.length ∧
    (perform_click_sequence env coords).successes =
      coords.countP (fun c => (tap_screen env c.1 c.2).1) ∧
    ((perform_click_sequence env coords).result = true ↔
      (perform_click_sequence env coords).successes = coords.length) ∧
    perform_click_sequence envTapFail34 [(1, 2), (3, 4), (5, 6)] =
      ⟨false, 2, 3, 1,
        ["shell input tap 1 2", "shell input tap 3 4", "shell input tap 5 6"]⟩ := by
  refine ⟨?_, ?_, ?_, by decide⟩
  · by_cases hc : coords = []
    · subst hc; rfl
    · have he : coords.isEmpty = false := by simp [hc]
      simp [perform_click_sequence, he, clickLoop_attempted]
  · by_cases hc : coords = []
    · subst hc; rfl
    · have he : coords.isEmpty = false := by simp [hc]
      simp [perform_click_sequence, he, clickLoop_successes]
  · by_cases hc : coords = []
    · subst hc; simp [perform_click_sequence]
    · have he : coords.isEmpty = false := by simp [hc]
      simp [perform_click_sequence, he]

/-- C7: the automation sequence is strictly ordered and fail-fast — if
the swipe step fails, the call returns `false` at once and its executor
trace is exactly the swipe's trace (no tap of the click sequence is ever
attempted); if the swipe succeeds, the click sequence runs after it and
decides the outcome; the sequence returns `true` only if every step
succeeded. -/
theorem execute_automation_sequence_fail_fast (env : Env) :
    ((swipe_screen env Config.SWIPE_START.1 Config.SWIPE_START.2 Config.SWIPE_END.1
        Config.SWIPE_END.2 none).1 = false →
      execute_automation_sequence env = (false,
        (swipe_screen env Config.SWIPE_START.1 Config.SWIPE_START.2 Config.SWIPE_END.1
          Config.SWIPE_END.2 none).2)) ∧
    ((swipe_screen env Config.SWIPE_START.1 Config.SWIPE_START.2 Config.SWIPE_END.1
        Config.SWIPE_END.2 none).1 = true →
      execute_automation_sequence env =
        ((perform_click_sequence env Config.CLICK_COORDINATES).result,
          (swipe_screen env Config.SWIPE_START.1 Config.SWIPE_START.2 Config.SWIPE_END.1
            Config.SWIPE_END.2 none).2 ++
          (perform_click_sequence env Config.CLICK_COORDINATES).trace)) ∧
    (execute_automation_sequence env).1 =
      ((swipe_screen env Config.SWIPE_START.1 Config.SWIPE_START.2 Config.SWIPE_END.1
          Config.SWIPE_END.2 none).1 &&
        (perform_click_sequence env Config.CLICK_COORDINATES).result) := by
  cases hsw : (swipe_screen env Config.SWIPE_START.1 Config.SWIPE_START.2 Config.SWIPE_END.1
      Config.SWIPE_END.2 none).1 <;>
    cases hck : (perform_click_sequence env Config.CLICK_COORDINATES).result <;>
      simp [execute_automation_sequence, hsw, hck]

/-- C7 witness: in an environment where every invocation fails, the
swipe step fails and the sequence stops with only the swipe's command in
its trace. -/
theorem execute_automation_sequence_fail_fast_witness :
    (swipe_screen envFail 1000 1400 540 1400 none).1 = false ∧
    execute_automation_sequence envFail =
      (false, (swipe_screen envFail 1000 1400 540 1400 none).2) :=
  ⟨by decide, (execute_automation_sequence_fail_fast envFail).1 (by decide)⟩

lemma retryAux_step_succ (op : Nat → Except String Bool) (maxR : Int)
    (attempt r : Nat) (hop : op attempt = .ok true) :
    retryAux op maxR attempt (r + 1) = ⟨true, 1, 0⟩ := by
  simp [retryAux, hop]

lemma retryAux_step_fail (op : Nat → Except String Bool) (maxR : Int)
    (attempt r : Nat) (hne : op attempt ≠ .ok true) :
    retryAux op maxR attempt (r + 1) =
      (if (attempt : Int) < maxR then
        ⟨(retryAux op maxR (attempt + 1) r).result,
          (retryAux op maxR (attempt + 1) r).calls + 1,
          (retryAux op maxR (attempt + 1) r).sleeps + 1⟩
      else
        ⟨(retryAux op maxR (attempt + 1) r).result,
          (retryAux op maxR (attempt + 1) r).calls + 1,
          (retryAux op maxR (attempt + 1) r).sleeps⟩) := by
  cases hop : op attempt with
  | ok b =>
    cases b with
    | true => exact absurd hop hne
    | false => simp [retryAux, hop]
  | error e => simp [retryAux, hop]

lemma retryAux_fail_result (op : Nat → Except String Bool) (maxR : Int)
    (attempt r : Nat) (hne : op attempt ≠ .ok true) :
    (retryAux op maxR attempt (r + 1)).result
      = (retryAux op maxR (attempt + 1) r).result := by
  rw [retryAux_step_fail op maxR attempt r hne]
  split <;> rfl

lemma retryAux_fail_calls (op : Nat → Except String Bool) (maxR : Int)
    (attempt r : Nat) (hne : op attempt ≠ .ok true) :
    (retryAux op maxR attempt (r + 1)).calls
      = (retryAux op maxR (attempt + 1) r).calls + 1 := by
  rw [retryAux_step_fail op maxR attempt r hne]
  split <;> rfl

lemma retryAux_fail_sleeps (op : Nat → Except String Bool) (maxR : Int)
    (attempt r : Nat) (hne : op attempt ≠ .ok true) :
    (retryAux op maxR attempt (r + 1)).sleeps
      = (retryAux op maxR (attempt + 1) r).sleeps
        + (if (attempt : Int) < maxR then 1 else 0) := by
  rw [retryAux_step_fail op maxR attempt r hne]
  split <;> simp_all

/-- Full characterisation of the attempt loop on the window of attempts
`attempt, ..., attempt + r - 1`, where the window reaches exactly to the
last allowed attempt (`attempt + r = maxR + 1`). -/
lemma retryAux_spec (op : Nat → Except String Bool) (maxR : Int) :
    ∀ r attempt : Nat, (attempt : Int) + r = maxR + 1 →
    ((retryAux op maxR attempt r).result = true →
      ∃ i : Nat, attempt ≤ i ∧ (i : Int) ≤ maxR ∧ op i = .ok true ∧
        (∀ j, attempt ≤ j → j < i → op j ≠ .ok true) ∧
        (retryAux op maxR attempt r).calls = i + 1 - attempt ∧
        (retryAux op maxR attempt r).sleeps = i - attempt) ∧
    ((retryAux op maxR attempt r).result = false →
      (∀ i : Nat, attempt ≤ i → (i : Int) ≤ maxR → op i ≠ .ok true) ∧
      (retryAux op maxR attempt r).calls = r ∧
      (retryAux op maxR attempt r).sleeps = r - 1) := by
  intro r
  induction r with
  | zero =>
    intro attempt hinv
    constructor
    · intro hres
      simp [retryAux] at hres
    · intro _
      refine ⟨?_, rfl, rfl⟩
      intro i hi1 hi2
      exact absurd hi2 (by omega)
  | succ r ih =>
    intro attempt hinv
    by_cases hsucc : op attempt = .ok true
    · constructor
      · intro _
        refine ⟨attempt, le_rfl, by omega, hsucc,
          fun j h1 h2 => absurd h2 (by omega), ?_, ?_⟩
        · rw [retryAux_step_succ op maxR attempt r hsucc]
          show 1 = attempt + 1 - attempt
          omega
        · rw [retryAux_step_succ op maxR attempt r hsucc]
          show 0 = attempt - attempt
          omega
      · intro hres
        rw [retryAux_step_succ op maxR attempt r hsucc] at hres
        simp at hres
    · have hres_eq := retryAux_fail_result op maxR attempt r hsucc
      have hcalls_eq := retryAux_fail_calls op maxR attempt r hsucc
      have hsleeps_eq := retryAux_fail_sleeps op maxR attempt r hsucc
      obtain ⟨ihT, ihF⟩ := ih (attempt + 1) (by push_cast; omega)
      constructor
      · intro hres
        rw [hres_eq] at hres
        obtain ⟨i, hi1, hi2, hi3, hi4, hi5, hi6⟩ := ihT hres
        have hlt : (attempt : Int) < maxR := by omega
        refine ⟨i, by omega, hi2, hi3, ?_, ?_, ?_⟩
        · intro j hj1 hj2
          rcases Nat.eq_or_lt_of_le hj1 with hj | hj
          · rw [← hj]; exact hsucc
          · exact hi4 j hj hj2
        · rw [hcalls_eq]; omega
        · rw [hsleeps_eq, if_pos hlt]; omega
      · intro hres
        rw [hres_eq] at hres
        obtain ⟨ih1, ih2, ih3⟩ := ihF hres
        refine ⟨?_, ?_, ?_⟩
        · intro i hi1 hi2
          rcases Nat.eq_or_lt_of_le hi1 with hi | hi
          · rw [← hi]; exact hsucc
          · exact ih1 i hi hi2
        · rw [hcalls_eq]; omega
        · rw [hsleeps_eq]
          by_cases hlt : (attempt : Int) < maxR
          · rw [if_pos hlt]; omega
          · rw [if_neg hlt]; omega

lemma retryAux_congr (op op2 : Nat → Except String Bool) (maxR : Int)
    (h : ∀ i, op2 i = .ok true ↔ op i = .ok true) :
    ∀ r attempt : Nat, retryAux op2 maxR attempt r = retryAux op maxR attempt r := by
  intro r
  induction r with
  | zero => intro attempt; rfl
  | succ r ih =>
    intro attempt
    by_cases hsucc : op attempt = .ok true
    · rw [retryAux_step_succ op maxR attempt r hsucc,
        retryAux_step_succ op2 maxR attempt r ((h attempt).2 hsucc)]
    · rw [retryAux_step_fail op maxR attempt r hsucc,
        retryAux_step_fail op2 maxR attempt r (fun hx => hsucc ((h attempt).1 hx)), ih]

/-- C5: for every operation and non-negative retry budget,
`wait_and_retry` makes at most `max_retries + 1` attempts, returns true
exactly when some attempt within the budget yields a truthy result and
then stops at the first such attempt `i` (`i + 1` invocations, `i`
sleeps — between consecutive attempts only, never after the last);
returns false iff every attempt yields a falsy result or an exception;
and an exception is treated exactly like a false result (replacing all
raised exceptions by falsy returns leaves the behaviour unchanged). -/
theorem wait_and_retry_spec (op : Nat → Except String Bool) (maxR : Int)
    (h : 0 ≤ maxR) : RetrySpec op maxR := by
  have hinv : ((0 : Nat) : Int) + ((maxR + 1).toNat : Int) = maxR + 1 := by
    push_cast; omega
  obtain ⟨hT, hF⟩ := retryAux_spec op maxR (maxR + 1).toNat 0 hinv
  have hwr : wait_and_retry op maxR = retryAux op maxR 0 (maxR + 1).toNat := rfl
  refine ⟨?_, ⟨?_, ?_⟩, ?_, ?_, ?_⟩
  · cases hres : (wait_and_retry op maxR).result with
    | false =>
      rw [hwr] at hres ⊢
      rw [(hF hres).2.1]
    | true =>
      rw [hwr] at hres ⊢
      obtain ⟨i, _, hi2, _, _, hc, _⟩ := hT hres
      omega
  · intro hres
    rw [hwr] at hres
    obtain ⟨i, _, hi2, hi3, _, _, _⟩ := hT hres
    exact ⟨i, hi2, hi3⟩
  · rintro ⟨i, hi1, hi2⟩
    cases hres : (wait_and_retry op maxR).result with
    | true => rfl
    | false =>
      rw [hwr] at hres
      exact absurd hi2 ((hF hres).1 i (Nat.zero_le i) hi1)
  · intro hres
    rw [hwr] at hres ⊢
    obtain ⟨i, _, hi2, hi3, hi4, hi5, hi6⟩ := hT hres
    exact ⟨i, hi2, hi3, fun j hj => hi4 j (Nat.zero_le j) hj, by omega, by omega⟩
  · intro hres
    rw [hwr] at hres ⊢
    obtain ⟨h1, h2, h3⟩ := hF hres
    exact ⟨h2, by omega, fun i hi => h1 i (Nat.zero_le i) hi⟩
  · show retryAux _ maxR 0 (maxR + 1).toNat = retryAux op maxR 0 (maxR + 1).toNat
    apply retryAux_congr
    intro i
    cases hop : op i with
    | ok b => cases b <;> simp [hop]
    | error e => simp [hop]

/-- C5 witness: with an operation that raises on attempt 0, returns
falsy on attempt 1 and truthy on attempt 2, a budget of 3 retries
satisfies the contract, returning true after exactly 3 invocations and
2 sleeps. -/
theorem wait_and_retry_spec_witness :
    ((0 : Int) ≤ 3 ∧ RetrySpec opTwoFails 3) ∧
    wait_and_retry opTwoFails 3 = ⟨true, 3, 2⟩ :=
  ⟨⟨by decide, wait_and_retry_spec opTwoFails 3 (by decide)⟩, by decide⟩

/-- C10: for every negative retry budget the attempt loop
`range(max_retries + 1)` is empty, so `wait_and_retry` returns `False`
without invoking the operation and without sleeping — the invalid
configuration is silently accepted rather than rejected. -/
theorem wait_and_retry_negative_retries (op : Nat → Except String Bool)
    (maxR : Int) (h : maxR < 0) :
    wait_and_retry op maxR = ⟨false, 0, 0⟩ := by
  unfold wait_and_retry
  rw [show (maxR + 1).toNat = 0 from by omega]
  rfl

/-- C10 witness: a budget of -1 retries yields zero invocations even for
an operation that would eventually succeed. -/
theorem wait_and_retry_negative_retries_witness :
    ((-1 : Int) < 0) ∧ wait_and_retry opTwoFails (-1) = ⟨false, 0, 0⟩ :=
  ⟨by decide, wait_and_retry_negative_retries opTwoFails (-1) (by decide)⟩

/-- The loop over a window of iterations none of which is interrupted:
every iteration records its outcome and the loop ends normally. -/
lemma runLoopAux_clean (events : Nat → IterEvent) (seqOf : Nat → SeqEvent) (n : Nat) :
    ∀ r i succ : Nat, (∀ j, i ≤ j → j < i + r → events j = .run (seqOf j) false) →
    runLoopAux events n r i succ = (succ + countSucc seqOf i r, i + r, false) := by
  intro r
  induction r with
  | zero => intro i succ _; simp [runLoopAux, countSucc]
  | succ r ih =>
    intro i succ hev
    have hi : events i = .run (seqOf i) false := hev i le_rfl (by omega)
    simp only [runLoopAux, hi, Bool.false_eq_true, false_and, if_false]
    by_cases hm : mainResult (seqOf i) = true
    · rw [if_pos hm, ih (i + 1) (succ + 1) (fun j hj1 hj2 => hev j (by omega) (by omega))]
      have hc : countSucc seqOf i (r + 1) = 1 + countSucc seqOf (i + 1) r := by
        simp [countSucc, hm]
      rw [hc, show succ + 1 + countSucc seqOf (i + 1) r
          = succ + (1 + countSucc seqOf (i + 1) r) from by omega,
        show i + 1 + r = i + (r + 1) from by omega]
    · rw [if_neg hm, ih (i + 1) succ (fun j hj1 hj2 => hev j (by omega) (by omega))]
      have hc : countSucc seqOf i (r + 1) = countSucc seqOf (i + 1) r := by
        simp [countSucc, hm]
      rw [hc, show i + 1 + r = i + (r + 1) from by omega]

/-- The loop when a `KeyboardInterrupt` arrives during the device check
of iteration `k` and every earlier iteration runs uninterrupted: the
loop stops at `k`, iteration `k` is recorded neither as a success nor as
a failure, and the counts accumulated over iterations `0..k-1` are
kept. -/
lemma runLoopAux_deviceInterrupt (events : Nat → IterEvent) (seqOf : Nat → SeqEvent)
    (n : Nat) :
    ∀ r i succ k : Nat, i ≤ k → k < i + r →
    events k = .deviceInterrupt →
    (∀ j, i ≤ j → j < k → events j = .run (seqOf j) false) →
    runLoopAux events n r i succ = (succ + countSucc seqOf i (k - i), k, true) := by
  intro r
  induction r with
  | zero =>
    intro i succ k h1 h2 _ _
    exact absurd h2 (by omega)
  | succ r ih =>
    intro i succ k hik hkr hk hev
    rcases Nat.eq_or_lt_of_le hik with hi | hi
    · subst hi
      simp only [runLoopAux, hk]
      simp [countSucc]
    · have hi2 : events i = .run (seqOf i) false := hev i le_rfl hi
      simp only [runLoopAux, hi2, Bool.false_eq_true, false_and, if_false]
      by_cases hm : mainResult (seqOf i) = true
      · rw [if_pos hm, ih (i + 1) (succ + 1) k (by omega) (by omega) hk
          (fun j hj1 hj2 => hev j (by omega) hj2)]
        have hc : countSucc seqOf i (k - i) = 1 + countSucc seqOf (i + 1) (k - (i + 1)) := by
          rw [show k - i = (k - (i + 1)) + 1 from by omega]
          simp [countSucc, hm]
        rw [hc, show succ + 1 + countSucc seqOf (i + 1) (k - (i + 1))
            = succ + (1 + countSucc seqOf (i + 1) (k - (i + 1))) from by omega]
      · rw [if_neg hm, ih (i + 1) succ k (by omega) (by omega) hk
          (fun j hj1 hj2 => hev j (by omega) hj2)]
        have hc : countSucc seqOf i (k - i) = countSucc seqOf (i + 1) (k - (i + 1)) := by
          rw [show k - i = (k - (i + 1)) + 1 from by omega]
          simp [countSucc, hm]
        rw [hc]

/-- C4: on a run with a positive repeat count in which no iteration is
interrupted, the loop records every planned iteration, the final success
count is the number of successful iterations, and the process exit
status is 0 exactly when the success rate
`success_count / repeat_count * 100` is at least 90 (else 1); and for
every non-positive repeat count the configuration is rejected with exit
status 1, zero iterations attempted and no dependence on the device
environment. -/
theorem run_loop_exit_code (events : Nat → IterEvent) (seqOf : Nat → SeqEvent)
    (n : Int) (hn : 0 < n)
    (hev : ∀ j : Nat, (j : Int) < n → events j = .run (seqOf j) false) :
    runMain events n =
      ⟨if 90 * n ≤ 100 * (countSucc seqOf 0 n.toNat : Int) then 0 else 1,
        countSucc seqOf 0 n.toNat, n.toNat, false⟩ ∧
    ((runMain events n).exit_code = 0 ↔
      (90 : ℚ) ≤ success_rate (countSucc seqOf 0 n.toNat) n) ∧
    (∀ events2 : Nat → IterEvent, ∀ m : Int, m ≤ 0 →
      runMain events2 m = ⟨1, 0, 0, false⟩) := by
  have hn2 : ¬ n ≤ 0 := by omega
  have hloop := runLoopAux_clean events seqOf n.toNat n.toNat 0 0
    (fun j hj1 hj2 => hev j (by omega))
  have hmain : runMain events n =
      ⟨if 90 * n ≤ 100 * (countSucc seqOf 0 n.toNat : Int) then 0 else 1,
        countSucc seqOf 0 n.toNat, n.toNat, false⟩ := by
    simp only [runMain, if_neg hn2, hloop]
    simp
  refine ⟨hmain, ?_, ?_⟩
  · rw [hmain]
    have hq : (90 : ℚ) ≤ success_rate (countSucc seqOf 0 n.toNat) n ↔
        90 * n ≤ 100 * (countSucc seqOf 0 n.toNat : Int) := by
      rw [success_rate, if_pos hn, div_mul_eq_mul_div,
        le_div_iff₀ (show (0 : ℚ) < (n : ℚ) from by exact_mod_cast hn),
        show ((countSucc seqOf 0 n.toNat : ℚ) * 100)
          = ((100 * (countSucc seqOf 0 n.toNat : Int) : Int) : ℚ) from by push_cast; ring,
        show ((90 : ℚ) * (n : ℚ)) = ((90 * n : Int) : ℚ) from by push_cast; ring,
        Int.cast_le]
    rw [hq]
    split <;> rename_i hc <;> simp [hc]
  · intro events2 m hm
    simp [runMain, if_pos hm]

/-- C4 witness: five uninterrupted iterations, all successful, exit with
status 0; five iterations with one failure (80% success rate, below the
90% threshold), exit with status 1. -/
theorem run_loop_exit_code_witness :
    (0 : Int) < 5 ∧
    runMain evAllSuccess 5 = ⟨0, 5, 5, false⟩ ∧
    runMain evFourOfFive 5 = ⟨1, 4, 5, false⟩ :=
  ⟨by decide,
    ((run_loop_exit_code evAllSuccess seqAllSuccess 5 (by decide)
      (fun j hj => rfl)).1).trans (by decide),
    ((run_loop_exit_code evFourOfFive seqFourOfFive 5 (by decide)
      (fun j hj => rfl)).1).trans (by decide)⟩

/-- C1 counterexample: with 3 planned iterations and a
`KeyboardInterrupt` delivered during iteration 1's automation sequence,
the run loop does not halt — all 3 iterations record an outcome, the
interrupted iteration is counted as a failure (success count 2 of 3,
hence exit status 1), and the loop's interrupt handler never fires;
the claim instead requires the loop to stop at the interrupt with the
interrupted iteration counted neither way. -/
theorem interrupt_in_sequence_does_not_halt :
    runMain evSwallowedInterrupt 3 = ⟨1, 2, 3, false⟩ ∧
    (runMain evSwallowedInterrupt 3).iterations_attempted = 3 ∧
    (runMain evSwallowedInterrupt 3).interrupted = false := by
  decide

/-- C1 (amended): an interrupt arriving inside the automation sequence
of an iteration is caught there and merely makes that iteration count as
failed, the loop continuing; but an interrupt delivered outside the
sequence body — here during the device check of iteration `k`, after
uninterrupted iterations `0..k-1` (which may themselves contain swallowed
in-sequence interrupts) — halts the loop immediately: iteration `k` is
counted neither as a success nor as a failure, no later iteration runs,
and the final summary and exit status are still produced from the counts
accumulated before the interrupt. -/
theorem run_loop_interrupt_outside_sequence (events : Nat → IterEvent)
    (seqOf : Nat → SeqEvent) (n : Int) (k : Nat) (hn : 0 < n) (hk : (k : Int) < n)
    (hdev : events k = .deviceInterrupt)
    (hbefore : ∀ j, j < k → events j = .run (seqOf j) false) :
    runMain events n =
      ⟨if 90 * n ≤ 100 * (countSucc seqOf 0 k : Int) then 0 else 1,
        countSucc seqOf 0 k, k, true⟩ := by
  have hn2 : ¬ n ≤ 0 := by omega
  have hloop := runLoopAux_deviceInterrupt events seqOf n.toNat n.toNat 0 0 k
    (Nat.zero_le k) (by omega) hdev (fun j hj1 hj2 => hbefore j hj2)
  simp only [runMain, if_neg hn2, hloop]
  simp

/-- C1 witness: interrupt during the device check of iteration 3 (index
3) of a planned 10: exactly 3 iterations are recorded, all successful,
the loop stops, and the summary yields exit status 1 (3 of 10 planned
iterations is below the 90% threshold). -/
theorem run_loop_interrupt_outside_sequence_witness :
    ((0 : Int) < 10 ∧ ((3 : Nat) : Int) < 10 ∧
      evDeviceInterruptAt3 3 = .deviceInterrupt) ∧
    runMain evDeviceInterruptAt3 10 = ⟨1, 3, 3, true⟩ :=
  ⟨⟨by decide, by decide, by decide⟩,
    (run_loop_interrupt_outside_sequence evDeviceInterruptAt3
      (fun _ => .result true) 10 3 (by decide) (by decide) (by decide)
      (fun j hj => by simp [evDeviceInterruptAt3, hj])).trans (by decide)⟩

end AdbControl
